import Mathlib

/-!
Verification development for the f4pga core: the `SymbiCache` staleness
cache (`f4pga/cache.py`) and the `ModuleContext` invocation-context
construction (`f4pga/module.py`), shallowly embedded in Lean 4.

Python dictionaries are modelled as association lists with insertion-order
semantics (`Dict`), Python values appearing in configurations as `PyVal`,
and the mixed int/str checksums stored by the cache as `HashVal`.
-/

namespace F4PGA

set_option autoImplicit false

universe u

/-- A Python `dict` with string keys, as an insertion-ordered association list. -/
abbrev Dict (α : Type u) : Type u := List (String × α)

/-- `d.get(k)`: the value stored at key `k`, if any (first match). -/
def dictGet {α : Type u} : Dict α → String → Option α
  | [], _ => Option.none
  | (k', v) :: rest, k => if k' = k then some v else dictGet rest k

/-- `k in d`: whether key `k` is present. -/
def dictHasKey {α : Type u} : Dict α → String → Bool
  | [], _ => false
  | (k', _) :: rest, k => k' = k || dictHasKey rest k

/-- Replace the value at every binding of key `k` (a Python dict has at most one). -/
def dictSetAll {α : Type u} : Dict α → String → α → Dict α
  | [], _, _ => []
  | (k', w) :: rest, k, v =>
    if k' = k then (k, v) :: dictSetAll rest k v else (k', w) :: dictSetAll rest k v

/-- `d[k] = v`: update in place when the key exists, append otherwise. -/
def dictSet {α : Type u} (d : Dict α) (k : String) (v : α) : Dict α :=
  if dictHasKey d k then dictSetAll d k v else d ++ [(k, v)]

/-- `d.pop(k)`: remove every binding of key `k` (a Python dict has at most one). -/
def dictPop {α : Type u} : Dict α → String → Dict α
  | [], _ => []
  | (k', v) :: rest, k => if k' = k then dictPop rest k else (k', v) :: dictPop rest k

/-- Two-level lookup `tbl.get(p) ... .get(c)`, as done for `hashes` in `update`. -/
def lookup2 {α : Type u} (tbl : Dict (Dict α)) (p c : String) : Option α :=
  match dictGet tbl p with
  | Option.none => Option.none
  | some m => dictGet m c

/-- A checksum value as stored by `SymbiCache`: directories get the Python
int `0`, files get `str(zlib.adler32(contents))`. -/
inductive HashVal : Type
  | intv (n : Int)
  | strv (s : String)
deriving DecidableEq, Repr

/-- Python truthiness of a stored checksum: the int `0` is falsy, a
non-empty string is truthy. -/
def hashTruthy : HashVal → Bool
  | .intv n => decide (n ≠ 0)
  | .strv s => decide (s ≠ "")

/-- Python truthiness of a stored status string. -/
def statusTruthy (s : String) : Bool := decide (s ≠ "")

/-- The in-memory state of `SymbiCache`: the `hashes` table
(`dict[str, dict[str, str]]` in the annotation, though directories store
the int `0`) and the `status` table. -/
structure SymbiCache : Type where
  hashes : Dict (Dict HashVal)
  status : Dict (Dict String)
deriving DecidableEq, Repr

/-- The state right after `__init__` on a missing/corrupt cache file:
`status = {}` and `load()` fell back to `hashes = {}`. -/
def emptyCache : SymbiCache := ⟨[], []⟩

/-- One side of `_try_pop_consumer`:
`if tbl.get(path) and tbl[path].get(consumer): tbl[path].pop(consumer);
if len(tbl[path]) == 0: tbl.pop(path)`.
Both `get`s are Python truthiness tests, so an empty inner dict or a falsy
stored value (the int `0`) skips the pop. -/
def tryPopTable {α : Type u} (truthy : α → Bool) (tbl : Dict (Dict α)) (p c : String) :
    Dict (Dict α) :=
  match dictGet tbl p with
  | Option.none => tbl
  | some m =>
    if m.isEmpty then tbl
    else
      match dictGet m c with
      | Option.none => tbl
      | some v =>
        if truthy v then
          if (dictPop m c).length = 0 then dictPop tbl p else dictSet tbl p (dictPop m c)
        else tbl

/-- `SymbiCache._try_pop_consumer`. -/
def try_pop_consumer (s : SymbiCache) (p c : String) : SymbiCache :=
  { status := tryPopTable statusTruthy s.status p c
    hashes := tryPopTable hashTruthy s.hashes p c }

/-- `SymbiCache._try_push_consumer_hash` / `_try_push_consumer_status`:
`if not tbl.get(path): tbl[path] = {}` then `tbl[path][consumer] = v`. -/
def try_push_consumer {α : Type u} (tbl : Dict (Dict α)) (p c : String) (v : α) :
    Dict (Dict α) :=
  let m := (dictGet tbl p).getD []
  dictSet tbl p (dictSet m c v)

/-- `zlib.adler32` over a byte sequence (bytes as naturals below 256). -/
def adler32 (bs : List Nat) : Nat :=
  let r := bs.foldl
    (fun (ab : Nat × Nat) (x : Nat) =>
      ((ab.1 + x) % 65521, (ab.2 + ((ab.1 + x) % 65521)) % 65521))
    (1, 0)
  r.2 * 65536 + r.1

/-- A filesystem entry: a regular file (or a symlink resolving to one) with
its byte contents, or a directory with the names of its children (which
`update` never reads). -/
inductive FSEntry : Type
  | file (bytes : List Nat)
  | dir (children : List String)
deriving DecidableEq, Repr

/-- A snapshot of the filesystem: which paths exist and what they are. -/
abbrev FS : Type := Dict FSEntry

/-- The fingerprint `update` computes for an existing path:
`hash = 0` for a directory, `hash = str(zlib_adler32(contents))` otherwise. -/
def fingerprint : FSEntry → HashVal
  | .dir _ => .intv 0
  | .file bs => .strv (toString (adler32 bs))

/-- `SymbiCache.update(path, consumer)` against filesystem snapshot `fs`:
returns the boolean result together with the new cache state. -/
def update (fs : FS) (s : SymbiCache) (p c : String) : Bool × SymbiCache :=
  match dictGet fs p with
  | Option.none => (true, try_pop_consumer s p c)
  | some e =>
    let h := fingerprint e
    if lookup2 s.hashes p c ≠ some h then
      (true,
        { status := try_push_consumer s.status p c "changed"
          hashes := try_push_consumer s.hashes p c h })
    else
      (false, { s with status := try_push_consumer s.status p c "same" })

/-- `SymbiCache.get_status(path, consumer)`; the two `if not _` guards are
Python truthiness tests, so an empty inner dict or an empty stored string
also yields the sentinel. -/
def get_status (s : SymbiCache) (p c : String) : String :=
  match dictGet s.status p with
  | Option.none => "untracked"
  | some m =>
    if m = [] then "untracked"
    else
      match dictGet m c with
      | Option.none => "untracked"
      | some st => if st = "" then "untracked" else st

/-- Run a sequence of `update` calls (each with the filesystem snapshot it
observed) from a given cache state. -/
def runUpdates (s : SymbiCache) : List (FS × String × String) → SymbiCache
  | [] => s
  | (fs, p, c) :: rest => runUpdates (update fs s p c).2 rest

/-! ## Persistence (`save` / `load`)

`save` executes `json_dump(str(self.hashes), wfptr)`: it JSON-encodes the
Python *string* `str(self.hashes)` (the repr of the dict). `load` executes
`self.hashes = json_load(rfptr)`, assigning whatever decoded JSON value the
file holds, with no validation. We model the decoded JSON values that can
occur here as `PyJson` and work at the decoded-value level, using the JSON
guarantee that `json_load` of `json_dump(v)`'s text is `v` itself. -/

/-- A decoded JSON value of the shapes relevant to the cache file: a JSON
string, or an object of objects of checksums (the shape a restored `hashes`
table would need). -/
inductive PyJson : Type
  | pstr (s : String)
  | ptable (t : Dict (Dict HashVal))
deriving DecidableEq, Repr

/-- Python `repr` of a stored checksum (for keys/values without escapes). -/
def pyReprHash : HashVal → String
  | .intv n => toString n
  | .strv s => "\x27" ++ s ++ "\x27"

/-- Python `str`/`repr` of a dict with string keys, given a repr for values:
`\x7b'k1': v1, 'k2': v2\x7d`. -/
def pyReprDict {α : Type} (f : α → String) (d : Dict α) : String :=
  "\x7b" ++ String.intercalate ", "
    (d.map (fun kv => "\x27" ++ kv.1 ++ "\x27: " ++ f kv.2)) ++ "\x7d"

/-- Python `str(self.hashes)`. -/
def pyReprHashes (t : Dict (Dict HashVal)) : String :=
  pyReprDict (pyReprDict pyReprHash) t

/-- `SymbiCache.save`, at the decoded-JSON-value level:
`json_dump(str(self.hashes), wfptr)` writes the JSON encoding of the Python
string `str(self.hashes)`, so the decoded value stored in the file is that
string. Note the `status` table is not serialized at all. -/
def save (s : SymbiCache) : PyJson := PyJson.pstr (pyReprHashes s.hashes)

/-- `SymbiCache.load` on a parseable cache file, at the decoded-value level:
`self.hashes = json_load(rfptr)` assigns the decoded value unvalidated. -/
def loadHashes (v : PyJson) : PyJson := v

/-- What the `hashes` field would have to decode to for a state's table to
be restored. -/
def tableAsJson (t : Dict (Dict HashVal)) : PyJson := PyJson.ptable t

/-- Whether a decoded cache-file value contains an entry for `(p, c)`. -/
def jsonHasEntry : PyJson → String → String → Bool
  | .ptable t, p, c => (lookup2 t p c).isSome
  | .pstr _, _, _ => false

/-! ## Module invocation context (`f4pga/module.py`)

`decompose_depname` and `ResolutionEnv` live in `f4pga/common`, which is
not part of the inspected sources; they are modelled from the spec where
so marked. `fatal`, by contrast, is neither defined in `module.py` nor in
its import list (`from f4pga.common import (decompose_depname,
ResolutionEnv)`), so the call `fatal(-1, ...)` raises
`NameError: name 'fatal' is not defined` -- Python resolves the callable
before evaluating its arguments, so the f-string naming the module and the
dependency is never evaluated. -/

/-- A Python value appearing in a raw per-stage configuration. -/
inductive PyVal : Type
  | pynone
  | pstrv (s : String)
  | pintv (n : Int)
deriving DecidableEq, Repr

/-- The qualifier decoded from a declared dependency name. -/
inductive Qual : Type
  | req
  | maybe
  | demand
deriving DecidableEq, Repr

/-- Modelled from the spec: `decompose_depname` (from the missing
`f4pga/common`) decodes a declared name into a `(bare_name, qualifier)`
pair by a trailing-marker convention; an unrecognized suffix decodes to
`required`. The markers are `?` (optional) and `!` (on-demand), the two
characters `get_mod_metadata` strips from declared output names. -/
def decompose_depname (n : String) : String × Qual :=
  match n.data.getLast? with
  | some '?' => (⟨n.data.dropLast⟩, .maybe)
  | some '!' => (⟨n.data.dropLast⟩, .demand)
  | _ => (n, .req)

/-- A Resolution Scope: bindings from variable names to replacement text. -/
abbrev REnv : Type := List (String × String)

/-- Substitute one binding: replace occurrences of `$\x7bk\x7d` by `v`. -/
def substVar (s : String) (kv : String × String) : String :=
  s.replace ("$\x7b" ++ kv.1 ++ "\x7d") kv.2

/-- Modelled from the spec: the Resolution Scope's single operation
"resolve(value) → concrete value", substituting symbolic references in
string values against the scope's bindings and leaving non-string values
(in particular `None`) unchanged. -/
def resolve (env : REnv) : PyVal → PyVal
  | .pstrv s => .pstrv (env.foldl substVar s)
  | v => v

/-- Resolving a dict of configuration values (as `r_env.resolve` does for
`config['produces']`): resolve each value, keep the keys. -/
def resolveDict (env : REnv) (d : Dict PyVal) : Dict PyVal :=
  d.map (fun kv => (kv.1, resolve env kv.2))

/-- The static part of a `Module` that `ModuleContext.__init__` reads: its
name and its declared (qualifier-tagged) input, value and output names. -/
structure Module : Type where
  name : String
  takes : List String
  values : List String
  produces : List String

/-- The raw per-stage configuration dictionary (`config['takes']`,
`config['values']`, `config['produces']`). -/
structure Config : Type where
  takes : Dict PyVal
  values : Dict PyVal
  produces : Dict PyVal

/-- A failure during context construction: a `NameError` carrying just the
unresolved global name (raised by the call to the undefined `fatal`), or
an `AttributeError` from `getattr` on a missing attribute. -/
inductive Err : Type
  | nameError (missing : String)
  | attributeError
deriving DecidableEq, Repr

/-- `deps_cfg.get(name)`: Python `.get` returns `None` both for an absent
key and for a key explicitly bound to `None`. -/
def pyGet (d : Dict PyVal) (k : String) : PyVal := (dictGet d k).getD .pynone

/-- `ModuleContext._getreqmaybe(obj, deps, deps_cfg)`: for each declared
name, decode its qualifier and look it up in the configuration. If it is
`None` and the qualifier is `required`, the code calls `fatal(-1, ...)`,
but `fatal` is neither defined nor imported in `module.py`, so Python
raises `NameError: name 'fatal' is not defined` before the f-string naming
the module and the dependency is ever evaluated; the construction aborts
identifying neither name. Otherwise bind the bare name to
`r_env.resolve(value)` (also when the value is `None`). `mname` mirrors the
method's access to `self.module_name`, which the failing branch never
manages to read. -/
def getreqmaybe (mname : String) (env : REnv) (obj : Dict PyVal) :
    List String → Dict PyVal → Except Err (Dict PyVal)
  | [], _ => .ok obj
  | n :: rest, cfg =>
    let bq := decompose_depname n
    let value := pyGet cfg bq.1
    if value = .pynone ∧ bq.2 = .req then .error (.nameError "fatal")
    else getreqmaybe mname env (dictSet obj bq.1 (resolve env value)) rest cfg

/-- `base.update(upd)` for Python dicts: write every binding of `upd` into
`base`, as done for `outputs.update(produces_resolved)`. -/
def dictUpdate {α : Type u} (base upd : Dict α) : Dict α :=
  upd.foldl (fun b kv => dictSet b kv.1 kv.2) base

/-- The fields of a constructed `ModuleContext` relevant to the claims
(namespaces modelled as dicts from attribute name to value). -/
structure ModuleContext : Type where
  module_name : String
  takes : Dict PyVal
  produces : Dict PyVal
  values : Dict PyVal
  outputs : Dict PyVal
deriving DecidableEq, Repr

/-- `ModuleContext.__init__`: bind takes, then values, resolve the explicit
`produces` mapping, call `map_io` on the partially built context (modelled
as a function of the takes, values and produces namespaces), merge the
explicit mapping over its result, and bind the outputs. -/
def mkModuleContext (m : Module) (cfg : Config) (env : REnv)
    (mapOutputs : Dict PyVal → Dict PyVal → Dict PyVal → Dict PyVal) :
    Except Err ModuleContext := do
  let takes ← getreqmaybe m.name env [] m.takes cfg.takes
  let values ← getreqmaybe m.name env [] m.values cfg.values
  let producesResolved := resolveDict env cfg.produces
  let outputsRaw := mapOutputs takes values producesResolved
  let merged := dictUpdate outputsRaw producesResolved
  let outputs ← getreqmaybe m.name env [] m.produces merged
  pure
    { module_name := m.name
      takes := takes
      produces := producesResolved
      values := values
      outputs := outputs }

/-- `getattr(self.produces, name) is not None` as a Bool. -/
def notNone : PyVal → Bool
  | .pynone => false
  | _ => true

/-- `ModuleContext.is_output_explicit(name)`:
`getattr(self.produces, name) is not None`; `getattr` raises
`AttributeError` when no attribute `name` was ever set on the namespace. -/
def is_output_explicit (ctx : ModuleContext) (name : String) : Except Err Bool :=
  match dictGet ctx.produces name with
  | Option.none => .error .attributeError
  | some v => .ok (notNone v)

/-! ## Predicates used in the claim statements -/

/-- Some declared name in `deps` has qualifier `required` and is absent
(Python `None`) in the configuration `cfgd`. -/
abbrev missingReq (deps : List String) (cfgd : Dict PyVal) : Prop :=
  ∃ n ∈ deps,
    (decompose_depname n).2 = Qual.req ∧ pyGet cfgd (decompose_depname n).1 = PyVal.pynone

/-- No tracked path maps to an empty consumer table, in either the status
or the hashes table. -/
def noEmptyTables (s : SymbiCache) : Prop :=
  (∀ p m, dictGet s.status p = some m → m ≠ []) ∧
    (∀ p m, dictGet s.hashes p = some m → m ≠ [])

/-! ## Concrete fixtures -/

/-- A cache tracking one file for one consumer. -/
def exCacheC1 : SymbiCache :=
  ⟨[("f", [("m", HashVal.strv "123")])], [("f", [("m", "changed")])]⟩

/-- A cache whose tracked path `d` was a directory (stored checksum is the
Python int `0`). -/
def exCacheC5 : SymbiCache :=
  ⟨[("d", [("m", HashVal.intv 0)])], [("d", [("m", "changed")])]⟩

/-- A cache tracking file `f` (contents `[1, 2, 3]`) for consumer `m`. -/
def exTracked : SymbiCache :=
  ⟨[("f", [("m", HashVal.strv "851975")])], [("f", [("m", "changed")])]⟩

/-- A module declaring one required input `top`. -/
def exModule : Module := ⟨"stage", ["top"], [], []⟩

/-- A module declaring one optional input `pcf?`. -/
def exModuleOpt : Module := ⟨"stage", ["pcf?"], [], []⟩

/-- A module declaring one on-demand output `log!`. -/
def exModuleOut : Module := ⟨"stage2", [], [], ["log!"]⟩

/-- An empty raw configuration. -/
def exConfigEmpty : Config := ⟨[], [], []⟩

/-- A configuration supplying only the input `top`. -/
def exConfigTop : Config := ⟨[("top", PyVal.pstrv "t.v")], [], []⟩

/-- A configuration supplying an explicit path for output `log`. -/
def exConfigProd : Config := ⟨[], [], [("log", PyVal.pstrv "x.log")]⟩

/-- A `map_io` returning no outputs. -/
def noOutputs : Dict PyVal → Dict PyVal → Dict PyVal → Dict PyVal := fun _ _ _ => []

/-- The context built from `exModuleOpt` and an empty configuration. -/
def exCtxOpt : ModuleContext := ⟨"stage", [("pcf", PyVal.pynone)], [], [], []⟩

/-- The context built from `exModuleOut` and an empty configuration. -/
def exCtxOut : ModuleContext := ⟨"stage2", [], [], [], [("log", PyVal.pynone)]⟩

/-- The context built from `exModuleOut` and `exConfigProd`. -/
def exCtxProd : ModuleContext :=
  ⟨"stage2", [], [("log", PyVal.pstrv "x.log")], [], [("log", PyVal.pstrv "x.log")]⟩

/-- A filesystem with one file `f` with contents `[1, 2, 3]`. -/
def exFS : FS := [("f", FSEntry.file [1, 2, 3])]

/-- A filesystem where `d` is a directory with one child. -/
def exFSDir1 : FS := [("d", FSEntry.dir ["a"])]

/-- The same directory after a file was added beneath it. -/
def exFSDir2 : FS := [("d", FSEntry.dir ["a", "b"])]

/-! ## Dictionary lemmas -/

theorem dictHasKey_eq_false_get {α : Type u} {d : Dict α} {k : String}
    (h : dictHasKey d k = false) : dictGet d k = Option.none := by
  induction d with
  | nil => rfl
  | cons kv rest ih =>
    obtain ⟨k', v⟩ := kv
    by_cases h0 : k' = k
    · subst h0
      simp [dictHasKey] at h
    · rw [dictGet, if_neg h0]
      exact ih (by simpa [dictHasKey, h0] using h)

theorem dictGet_append {α : Type u} (d1 d2 : Dict α) (k : String) :
    dictGet (d1 ++ d2) k =
      match dictGet d1 k with
      | Option.none => dictGet d2 k
      | some v => some v := by
  induction d1 with
  | nil => rfl
  | cons kv rest ih =>
    obtain ⟨k', v⟩ := kv
    by_cases hk : k' = k
    · simp [dictGet, hk]
    · simp [dictGet, hk, ih]

theorem dictGet_dictSetAll {α : Type u} (d : Dict α) (k k' : String) (v : α) :
    dictGet (dictSetAll d k v) k' =
      if k' = k then (if dictHasKey d k then some v else Option.none)
      else dictGet d k' := by
  induction d with
  | nil => by_cases h : k' = k <;> simp [dictSetAll, dictGet, dictHasKey, h]
  | cons kv rest ih =>
    obtain ⟨k0, w⟩ := kv
    simp only [dictSetAll]
    by_cases h0 : k0 = k
    · rw [if_pos h0]
      subst h0
      simp only [dictGet, dictHasKey]
      by_cases h1 : k' = k0
      · subst h1
        simp
      · have h1' : ¬ k0 = k' := fun he => h1 he.symm
        simp [h1, h1', ih]
    · rw [if_neg h0]
      simp only [dictGet, dictHasKey]
      by_cases h2 : k0 = k'
      · subst h2
        simp [h0, ih]
      · simp [h0, h2, ih]

theorem dictGet_dictSet_self {α : Type u} (d : Dict α) (k : String) (v : α) :
    dictGet (dictSet d k v) k = some v := by
  unfold dictSet
  by_cases h : dictHasKey d k
  · simp [h, dictGet_dictSetAll]
  · rw [if_neg h, dictGet_append,
      dictHasKey_eq_false_get (by simpa using h)]
    simp [dictGet]

theorem dictGet_dictSet_ne {α : Type u} (d : Dict α) {k k' : String} (v : α)
    (h : k' ≠ k) : dictGet (dictSet d k v) k' = dictGet d k' := by
  unfold dictSet
  by_cases hk : dictHasKey d k
  · simp [hk, dictGet_dictSetAll, h]
  · rw [if_neg hk, dictGet_append]
    cases hg : dictGet d k' with
    | none =>
      have h' : ¬ k = k' := fun he => h he.symm
      simp [dictGet, h']
    | some w => rfl

theorem dictGet_dictPop_self {α : Type u} (d : Dict α) (k : String) :
    dictGet (dictPop d k) k = Option.none := by
  induction d with
  | nil => rfl
  | cons kv rest ih =>
    obtain ⟨k', v⟩ := kv
    by_cases h : k' = k
    · subst h
      simp [dictPop, ih]
    · simp [dictPop, dictGet, h, ih]

theorem dictGet_dictPop_ne {α : Type u} (d : Dict α) {k k' : String}
    (h : k' ≠ k) : dictGet (dictPop d k) k' = dictGet d k' := by
  induction d with
  | nil => rfl
  | cons kv rest ih =>
    obtain ⟨k0, v⟩ := kv
    by_cases h0 : k0 = k
    · subst h0
      have h1 : ¬ k0 = k' := fun he => h he.symm
      simp [dictPop, dictGet, h1, ih]
    · by_cases h1 : k0 = k'
      · subst h1
        simp [dictPop, dictGet, h0, ih]
      · simp [dictPop, dictGet, h0, h1, ih]

theorem dictSet_ne_nil {α : Type u} (d : Dict α) (k : String) (v : α) :
    dictSet d k v ≠ [] := by
  unfold dictSet
  cases d with
  | nil => simp [dictHasKey]
  | cons kv rest =>
    by_cases h : dictHasKey (kv :: rest) k
    · simp only [dictSet, if_pos h, dictSetAll]
      split <;> simp
    · simp [h]

theorem dictPop_eq_nil_get {α : Type u} {d : Dict α} {k c : String}
    (h : dictPop d k = []) (hne : c ≠ k) : dictGet d c = Option.none := by
  induction d with
  | nil => rfl
  | cons kv rest ih =>
    obtain ⟨k0, v⟩ := kv
    by_cases h0 : k0 = k
    · rw [dictPop, if_pos h0] at h
      have hc : ¬ k0 = c := by rw [h0]; exact fun he => hne he.symm
      rw [dictGet, if_neg hc]
      exact ih h
    · rw [dictPop, if_neg h0] at h
      simp at h

/-! ## Cache lemmas -/

theorem lookup2_tryPush_self {α : Type u} (tbl : Dict (Dict α)) (p c : String) (v : α) :
    lookup2 (try_push_consumer tbl p c v) p c = some v := by
  unfold try_push_consumer lookup2
  simp [dictGet_dictSet_self]

theorem lookup2_tryPush_ne {α : Type u} (tbl : Dict (Dict α)) {p c q c' : String} (v : α)
    (h : ¬(q = p ∧ c' = c)) :
    lookup2 (try_push_consumer tbl p c v) q c' = lookup2 tbl q c' := by
  unfold try_push_consumer lookup2
  by_cases hq : q = p
  · subst hq
    have hc : c' ≠ c := fun he => h ⟨rfl, he⟩
    simp only [dictGet_dictSet_self, dictGet_dictSet_ne _ _ hc]
    cases hp : dictGet tbl q with
    | none => simp [dictGet]
    | some m => simp
  · simp only [dictGet_dictSet_ne _ _ hq]

theorem lookup2_tryPop_ne {α : Type u} (tr : α → Bool) (tbl : Dict (Dict α))
    {p c q c' : String} (h : ¬(q = p ∧ c' = c)) :
    lookup2 (tryPopTable tr tbl p c) q c' = lookup2 tbl q c' := by
  cases hp : dictGet tbl p with
  | none => simp only [tryPopTable, hp]
  | some m =>
    by_cases hm : m.isEmpty
    · simp only [tryPopTable, hp, if_pos hm]
    · cases hc : dictGet m c with
      | none => simp only [tryPopTable, hp, if_neg hm, hc]
      | some v =>
        by_cases htr : tr v = true
        · by_cases hl : (dictPop m c).length = 0
          · simp only [tryPopTable, hp, if_neg hm, hc, if_pos htr, if_pos hl]
            by_cases hq : q = p
            · subst hq
              have hcc : c' ≠ c := fun he => h ⟨rfl, he⟩
              unfold lookup2
              simp only [dictGet_dictPop_self, hp,
                dictPop_eq_nil_get (List.length_eq_zero.mp hl) hcc]
            · unfold lookup2
              rw [dictGet_dictPop_ne _ hq]
          · simp only [tryPopTable, hp, if_neg hm, hc, if_pos htr, if_neg hl]
            by_cases hq : q = p
            · subst hq
              have hcc : c' ≠ c := fun he => h ⟨rfl, he⟩
              unfold lookup2
              simp only [dictGet_dictSet_self, hp, dictGet_dictPop_ne _ hcc]
            · unfold lookup2
              rw [dictGet_dictSet_ne _ _ hq]
        · simp only [tryPopTable, hp, if_neg hm, hc, if_neg htr]

theorem tryPopTable_noEmpty {α : Type u} (tr : α → Bool) (tbl : Dict (Dict α))
    (p c : String) (H : ∀ q m, dictGet tbl q = some m → m ≠ []) :
    ∀ q m, dictGet (tryPopTable tr tbl p c) q = some m → m ≠ [] := by
  cases hp : dictGet tbl p with
  | none => simpa only [tryPopTable, hp] using H
  | some m0 =>
    by_cases hm : m0.isEmpty
    · simpa only [tryPopTable, hp, if_pos hm] using H
    · cases hc : dictGet m0 c with
      | none => simpa only [tryPopTable, hp, if_neg hm, hc] using H
      | some v =>
        by_cases htr : tr v = true
        · by_cases hl : (dictPop m0 c).length = 0
          · simp only [tryPopTable, hp, if_neg hm, hc, if_pos htr, if_pos hl]
            intro q m hq
            by_cases hqp : q = p
            · subst hqp
              rw [dictGet_dictPop_self] at hq
              exact absurd hq (by simp)
            · exact H q m (by rwa [dictGet_dictPop_ne _ hqp] at hq)
          · simp only [tryPopTable, hp, if_neg hm, hc, if_pos htr, if_neg hl]
            intro q m hq
            by_cases hqp : q = p
            · subst hqp
              rw [dictGet_dictSet_self] at hq
              cases hq
              exact fun he => hl (by rw [he]; rfl)
            · exact H q m (by rwa [dictGet_dictSet_ne _ _ hqp] at hq)
        · simpa only [tryPopTable, hp, if_neg hm, hc, if_neg htr] using H

theorem try_push_consumer_noEmpty {α : Type u} (tbl : Dict (Dict α))
    (p c : String) (v : α) (H : ∀ q m, dictGet tbl q = some m → m ≠ []) :
    ∀ q m, dictGet (try_push_consumer tbl p c v) q = some m → m ≠ [] := by
  intro q m hq
  unfold try_push_consumer at hq
  by_cases hqp : q = p
  · subst hqp
    rw [dictGet_dictSet_self] at hq
    cases hq
    exact dictSet_ne_nil _ _ _
  · exact H q m (by rwa [dictGet_dictSet_ne _ _ hqp] at hq)

theorem get_status_eq_lookup2 (s : SymbiCache) (p c : String) :
    get_status s p c =
      match lookup2 s.status p c with
      | Option.none => "untracked"
      | some st => if st = "" then "untracked" else st := by
  unfold get_status lookup2
  cases hp : dictGet s.status p with
  | none => rfl
  | some m =>
    cases m with
    | nil => simp [dictGet]
    | cons a as =>
      simp only [if_neg (by simp : ¬((a :: as) = []))]

theorem lookup2_status_none_untracked {s : SymbiCache} {p c : String}
    (h : lookup2 s.status p c = Option.none) : get_status s p c = "untracked" := by
  rw [get_status_eq_lookup2, h]

theorem update_none (fs : FS) (s : SymbiCache) (p c : String)
    (h : dictGet fs p = Option.none) :
    update fs s p c = (true, try_pop_consumer s p c) := by
  unfold update
  rw [h]

theorem update_some (fs : FS) (s : SymbiCache) (p c : String) (e : FSEntry)
    (h : dictGet fs p = some e) :
    update fs s p c =
      if lookup2 s.hashes p c = some (fingerprint e) then
        (false, { s with status := try_push_consumer s.status p c "same" })
      else
        (true,
          { status := try_push_consumer s.status p c "changed"
            hashes := try_push_consumer s.hashes p c (fingerprint e) }) := by
  unfold update
  rw [h]
  by_cases hc : lookup2 s.hashes p c = some (fingerprint e)
  · simp [hc]
  · simp [hc]

theorem lookup2_update_status_none {fs : FS} {s : SymbiCache} {p c q c' : String}
    (hne : ¬(q = p ∧ c' = c)) (h : lookup2 s.status q c' = Option.none) :
    lookup2 (update fs s p c).2.status q c' = Option.none := by
  cases hp : dictGet fs p with
  | none =>
    rw [update_none fs s p c hp]
    show lookup2 (tryPopTable statusTruthy s.status p c) q c' = Option.none
    rw [lookup2_tryPop_ne _ _ hne]
    exact h
  | some e =>
    rw [update_some fs s p c e hp]
    by_cases hc : lookup2 s.hashes p c = some (fingerprint e)
    · rw [if_pos hc]
      show lookup2 (try_push_consumer s.status p c "same") q c' = Option.none
      rw [lookup2_tryPush_ne _ _ hne]
      exact h
    · rw [if_neg hc]
      show lookup2 (try_push_consumer s.status p c "changed") q c' = Option.none
      rw [lookup2_tryPush_ne _ _ hne]
      exact h

theorem lookup2_runUpdates_status_none {p c : String} :
    ∀ (ops : List (FS × String × String)) (s : SymbiCache),
      (∀ t ∈ ops, ¬(t.2.1 = p ∧ t.2.2 = c)) →
      lookup2 s.status p c = Option.none →
      lookup2 (runUpdates s ops).status p c = Option.none := by
  intro ops
  induction ops with
  | nil => intro s _ h; exact h
  | cons t rest ih =>
    intro s hops h
    obtain ⟨fs, p', c'⟩ := t
    have hne : ¬(p = p' ∧ c = c') := fun hb =>
      hops _ (List.mem_cons_self _ _) ⟨hb.1.symm, hb.2.symm⟩
    exact ih _ (fun u hu => hops u (List.mem_cons_of_mem _ hu))
      (lookup2_update_status_none hne h)

theorem get_status_tryPop_self (s : SymbiCache) (p c : String) :
    get_status (try_pop_consumer s p c) p c = "untracked" := by
  rw [get_status_eq_lookup2]
  show (match lookup2 (tryPopTable statusTruthy s.status p c) p c with
    | Option.none => "untracked"
    | some st => if st = "" then "untracked" else st) = "untracked"
  cases hp : dictGet s.status p with
  | none =>
    simp only [tryPopTable, hp]
    unfold lookup2
    rw [hp]
  | some m =>
    by_cases hm : m.isEmpty
    · simp only [tryPopTable, hp, if_pos hm]
      unfold lookup2
      rw [hp]
      have hme : m = [] := by
        cases m with
        | nil => rfl
        | cons a as => simp [List.isEmpty] at hm
      subst hme
      rfl
    · cases hc : dictGet m c with
      | none =>
        simp only [tryPopTable, hp, if_neg hm, hc]
        simp only [lookup2, hp, hc]
      | some v =>
        by_cases htr : statusTruthy v = true
        · by_cases hl : (dictPop m c).length = 0
          · simp only [tryPopTable, hp, if_neg hm, hc, if_pos htr, if_pos hl]
            unfold lookup2
            rw [dictGet_dictPop_self]
          · simp only [tryPopTable, hp, if_neg hm, hc, if_pos htr, if_neg hl]
            simp only [lookup2, dictGet_dictSet_self, dictGet_dictPop_self]
        · simp only [tryPopTable, hp, if_neg hm, hc, if_neg htr]
          have hv : v = "" := by
            unfold statusTruthy at htr
            simpa using htr
          subst hv
          simp [lookup2, hp, hc]

/-! ## Module-context lemmas -/

theorem getreqmaybe_error_nameError {mname : String} {env : REnv} {e : Err} :
    ∀ (deps : List String) (obj cfg : Dict PyVal),
      getreqmaybe mname env obj deps cfg = .error e → e = Err.nameError "fatal" := by
  intro deps
  induction deps with
  | nil =>
    intro obj cfg h
    simp [getreqmaybe] at h
  | cons n rest ih =>
    intro obj cfg h
    rw [getreqmaybe] at h
    by_cases hcond : pyGet cfg (decompose_depname n).1 = PyVal.pynone ∧
        (decompose_depname n).2 = Qual.req
    · rw [if_pos hcond] at h
      cases h
      rfl
    · rw [if_neg hcond] at h
      exact ih _ _ h

theorem getreqmaybe_missing_error {mname : String} {env : REnv} :
    ∀ (deps : List String) (cfg : Dict PyVal), missingReq deps cfg →
      ∀ obj, ∃ e, getreqmaybe mname env obj deps cfg = .error e := by
  intro deps
  induction deps with
  | nil =>
    intro cfg hm obj
    obtain ⟨n, hn, _⟩ := hm
    cases hn
  | cons n rest ih =>
    intro cfg hm obj
    by_cases hcond : pyGet cfg (decompose_depname n).1 = PyVal.pynone ∧
        (decompose_depname n).2 = Qual.req
    · exact ⟨_, by rw [getreqmaybe, if_pos hcond]⟩
    · obtain ⟨n', hn', hq, hv⟩ := hm
      have hn'r : n' ∈ rest := by
        cases List.mem_cons.mp hn' with
        | inl he => exact absurd (he ▸ And.intro hv hq) hcond
        | inr hr => exact hr
      obtain ⟨e, he⟩ := ih cfg ⟨n', hn'r, hq, hv⟩
        (dictSet obj (decompose_depname n).1 (resolve env (pyGet cfg (decompose_depname n).1)))
      exact ⟨e, by rw [getreqmaybe, if_neg hcond]; exact he⟩

theorem getreqmaybe_missing_nameError {mname : String} {env : REnv}
    {deps : List String} {cfg : Dict PyVal} (hm : missingReq deps cfg) (obj : Dict PyVal) :
    getreqmaybe mname env obj deps cfg = .error (Err.nameError "fatal") := by
  obtain ⟨e, he⟩ := getreqmaybe_missing_error deps cfg hm obj
  rw [he, getreqmaybe_error_nameError deps obj cfg he]

theorem getreqmaybe_ok_preserve {mname : String} {env : REnv} :
    ∀ (deps : List String) (obj cfg r : Dict PyVal),
      getreqmaybe mname env obj deps cfg = .ok r →
      ∀ k, (∀ n ∈ deps, (decompose_depname n).1 ≠ k) → dictGet r k = dictGet obj k := by
  intro deps
  induction deps with
  | nil =>
    intro obj cfg r h k _
    rw [getreqmaybe] at h
    cases h
    rfl
  | cons n rest ih =>
    intro obj cfg r h k hk
    rw [getreqmaybe] at h
    by_cases hcond : pyGet cfg (decompose_depname n).1 = PyVal.pynone ∧
        (decompose_depname n).2 = Qual.req
    · rw [if_pos hcond] at h
      cases h
    · rw [if_neg hcond] at h
      have := ih _ _ _ h k (fun n' hn' => hk n' (List.mem_cons_of_mem _ hn'))
      rw [this, dictGet_dictSet_ne _ _
        (fun he => hk n (List.mem_cons_self _ _) he.symm)]

theorem getreqmaybe_ok_binds {mname : String} {env : REnv} :
    ∀ (deps : List String) (obj cfg r : Dict PyVal),
      (deps.map (fun n => (decompose_depname n).1)).Nodup →
      getreqmaybe mname env obj deps cfg = .ok r →
      ∀ n ∈ deps,
        dictGet r (decompose_depname n).1 =
          some (resolve env (pyGet cfg (decompose_depname n).1)) := by
  intro deps
  induction deps with
  | nil =>
    intro obj cfg r _ _ n hn
    cases hn
  | cons n0 rest ih =>
    intro obj cfg r hnd h n hn
    rw [getreqmaybe] at h
    by_cases hcond : pyGet cfg (decompose_depname n0).1 = PyVal.pynone ∧
        (decompose_depname n0).2 = Qual.req
    · rw [if_pos hcond] at h
      cases h
    · rw [if_neg hcond] at h
      rw [List.map_cons, List.nodup_cons] at hnd
      cases List.mem_cons.mp hn with
      | inl he =>
        subst he
        rw [getreqmaybe_ok_preserve rest _ cfg r h (decompose_depname n).1
          (fun n' hn' he' => hnd.1 (he' ▸ List.mem_map_of_mem _ hn')),
          dictGet_dictSet_self]
      | inr hr => exact ih _ _ _ hnd.2 h n hr

theorem mkModuleContext_err_takes {m : Module} {cfg : Config} {env : REnv}
    {io : Dict PyVal → Dict PyVal → Dict PyVal → Dict PyVal} {e : Err}
    (h : getreqmaybe m.name env [] m.takes cfg.takes = .error e) :
    mkModuleContext m cfg env io = .error e := by
  simp [mkModuleContext, h, Except.bind, bind]

theorem mkModuleContext_err_values {m : Module} {cfg : Config} {env : REnv}
    {io : Dict PyVal → Dict PyVal → Dict PyVal → Dict PyVal} {tks : Dict PyVal} {e : Err}
    (h1 : getreqmaybe m.name env [] m.takes cfg.takes = .ok tks)
    (h2 : getreqmaybe m.name env [] m.values cfg.values = .error e) :
    mkModuleContext m cfg env io = .error e := by
  simp [mkModuleContext, h1, h2, Except.bind, bind]

theorem mkModuleContext_ok_ok {m : Module} {cfg : Config} {env : REnv}
    {io : Dict PyVal → Dict PyVal → Dict PyVal → Dict PyVal} {tks vls : Dict PyVal}
    (h1 : getreqmaybe m.name env [] m.takes cfg.takes = .ok tks)
    (h2 : getreqmaybe m.name env [] m.values cfg.values = .ok vls) :
    mkModuleContext m cfg env io =
      match getreqmaybe m.name env [] m.produces
          (dictUpdate (io tks vls (resolveDict env cfg.produces))
            (resolveDict env cfg.produces)) with
      | .error e => .error e
      | .ok outs =>
        .ok
          { module_name := m.name
            takes := tks
            produces := resolveDict env cfg.produces
            values := vls
            outputs := outs } := by
  cases h3 : getreqmaybe m.name env [] m.produces
      (dictUpdate (io tks vls (resolveDict env cfg.produces))
        (resolveDict env cfg.produces)) with
  | error e => simp [mkModuleContext, h1, h2, h3, Except.bind, bind]
  | ok outs =>
    simp [mkModuleContext, h1, h2, h3, Except.bind, bind, pure, Except.pure]

theorem mkModuleContext_ok_produces {m : Module} {cfg : Config} {env : REnv}
    {io : Dict PyVal → Dict PyVal → Dict PyVal → Dict PyVal} {ctx : ModuleContext}
    (h : mkModuleContext m cfg env io = .ok ctx) :
    ctx.produces = resolveDict env cfg.produces := by
  cases h1 : getreqmaybe m.name env [] m.takes cfg.takes with
  | error e => rw [mkModuleContext_err_takes h1] at h; cases h
  | ok tks =>
    cases h2 : getreqmaybe m.name env [] m.values cfg.values with
    | error e => rw [mkModuleContext_err_values h1 h2] at h; cases h
    | ok vls =>
      rw [mkModuleContext_ok_ok h1 h2] at h
      cases h3 : getreqmaybe m.name env [] m.produces
          (dictUpdate (io tks vls (resolveDict env cfg.produces))
            (resolveDict env cfg.produces)) with
      | error e => rw [h3] at h; cases h
      | ok outs =>
        rw [h3] at h
        cases h
        rfl

theorem dictGet_resolveDict (env : REnv) (d : Dict PyVal) (k : String) :
    dictGet (resolveDict env d) k = (dictGet d k).map (resolve env) := by
  induction d with
  | nil => rfl
  | cons kv rest ih =>
    obtain ⟨k0, v⟩ := kv
    by_cases h : k0 = k
    · subst h
      simp [resolveDict, dictGet]
    · simp [resolveDict, dictGet, h, ih]
      simpa [resolveDict] using ih

theorem lookup2_update_hashes_self {fs : FS} (s : SymbiCache) {p : String} (c : String)
    {e : FSEntry} (h : dictGet fs p = some e) :
    lookup2 (update fs s p c).2.hashes p c = some (fingerprint e) := by
  rw [update_some fs s p c e h]
  by_cases hc : lookup2 s.hashes p c = some (fingerprint e)
  · rw [if_pos hc]
    exact hc
  · rw [if_neg hc]
    exact lookup2_tryPush_self _ _ _ _

theorem get_status_congr {s t : SymbiCache} {p c : String}
    (h : lookup2 s.status p c = lookup2 t.status p c) :
    get_status s p c = get_status t p c := by
  rw [get_status_eq_lookup2, get_status_eq_lookup2, h]

/-! ## The claims -/

/-- Claim C1 (code bug): the spec says save-then-load restores the entry
table exactly, but `save` executes `json_dump(str(self.hashes), ...)`: the
persisted JSON value is the Python repr *string* of the hashes table, so
`load` assigns that string, not the table, to `hashes` (and the status
table is never serialized at all). At the concrete one-entry cache the
round-tripped value is a JSON string and differs from the entry table. -/
theorem c1_save_load_not_roundtrip :
    loadHashes (save exCacheC1) =
      PyJson.pstr "\x7b\x27f\x27: \x7b\x27m\x27: \x27123\x27\x7d\x7d" ∧
    loadHashes (save exCacheC1) ≠ tableAsJson exCacheC1.hashes :=
  ⟨rfl, by decide⟩

/-- Claim C2 (code bug): the claim (and the f-string written at
`module.py:103`) says a missing required dependency aborts construction
with a fatal error naming the stage and the dependency, and the code does
fail fast there (for a missing required input, `map_io` is never invoked:
the result does not depend on it). But `fatal` is neither defined nor
imported in `module.py`, and Python resolves the callable before its
arguments, so every such failure is `NameError: name 'fatal' is not
defined` — it identifies neither the stage nor the dependency: every
error `mkModuleContext` can produce is the bare `NameError`. -/
theorem c2_missing_required_raises_nameerror :
    (∀ (m : Module) (cfg : Config) (env : REnv)
        (io : Dict PyVal → Dict PyVal → Dict PyVal → Dict PyVal) (e : Err),
      mkModuleContext m cfg env io = .error e → e = Err.nameError "fatal") ∧
    (∀ (m : Module) (cfg : Config) (env : REnv)
        (io : Dict PyVal → Dict PyVal → Dict PyVal → Dict PyVal),
      missingReq m.takes cfg.takes →
      (∀ io2, mkModuleContext m cfg env io = mkModuleContext m cfg env io2) ∧
      mkModuleContext m cfg env io = .error (Err.nameError "fatal")) := by
  constructor
  · intro m cfg env io e h
    cases h1 : getreqmaybe m.name env [] m.takes cfg.takes with
    | error e1 =>
      rw [mkModuleContext_err_takes h1] at h
      injection h with he
      exact he ▸ getreqmaybe_error_nameError _ _ _ h1
    | ok tks =>
      cases h2 : getreqmaybe m.name env [] m.values cfg.values with
      | error e2 =>
        rw [mkModuleContext_err_values h1 h2] at h
        injection h with he
        exact he ▸ getreqmaybe_error_nameError _ _ _ h2
      | ok vls =>
        rw [mkModuleContext_ok_ok h1 h2] at h
        cases h3 : getreqmaybe m.name env [] m.produces
            (dictUpdate (io tks vls (resolveDict env cfg.produces))
              (resolveDict env cfg.produces)) with
        | error e3 =>
          rw [h3] at h
          injection h with he
          exact he ▸ getreqmaybe_error_nameError _ _ _ h3
        | ok outs =>
          rw [h3] at h
          exact Except.noConfusion h
  · intro m cfg env io hm
    have ht := @getreqmaybe_missing_nameError m.name env m.takes cfg.takes hm []
    exact ⟨fun io2 => by rw [mkModuleContext_err_takes ht, mkModuleContext_err_takes ht],
      mkModuleContext_err_takes ht⟩

/-- Witness for C2: the module `exModule` requires input `top`, which the
empty configuration omits; construction fails with the bare `NameError`
(naming neither stage nor dependency), and the result is the same for a
different `map_io`. -/
theorem c2_missing_required_raises_nameerror_witness :
    missingReq exModule.takes exConfigEmpty.takes ∧
    mkModuleContext exModule exConfigEmpty [] noOutputs =
      .error (Err.nameError "fatal") ∧
    mkModuleContext exModule exConfigEmpty [] noOutputs =
      mkModuleContext exModule exConfigEmpty []
        (fun _ _ _ => [("x", PyVal.pstrv "y")]) :=
  ⟨by decide,
    (c2_missing_required_raises_nameerror.2 exModule exConfigEmpty [] noOutputs
      (by decide)).2,
    (c2_missing_required_raises_nameerror.2 exModule exConfigEmpty [] noOutputs
      (by decide)).1 _⟩

/-- Counterexample to claim C3: for the optional input `pcf?` absent from
the configuration, the resolved mapping does NOT omit the name — the
attribute `pcf` is created and bound to `None`. -/
theorem c3_optional_absent_counterexample :
    mkModuleContext exModuleOpt exConfigEmpty [] noOutputs = .ok exCtxOpt ∧
    dictGet exCtxOpt.takes "pcf" = some PyVal.pynone ∧
    dictGet exCtxOpt.takes "pcf" ≠ Option.none :=
  ⟨rfl, rfl, by decide⟩

/-- Claim C3 (amended): for every declared input or configuration value,
successful construction binds the bare name to the Resolution Scope's
`resolve` of the configured value; in particular an absent `optional` name
is bound to `None` (the attribute is created), not omitted. -/
theorem c3_optional_binds_resolved (mname : String) (env : REnv)
    (deps : List String) (cfg r : Dict PyVal)
    (hnd : (deps.map (fun n => (decompose_depname n).1)).Nodup)
    (h : getreqmaybe mname env [] deps cfg = .ok r) :
    ∀ n ∈ deps,
      dictGet r (decompose_depname n).1 =
        some (resolve env (pyGet cfg (decompose_depname n).1)) ∧
      (pyGet cfg (decompose_depname n).1 = PyVal.pynone →
        dictGet r (decompose_depname n).1 = some PyVal.pynone) := by
  intro n hn
  have hb := getreqmaybe_ok_binds deps [] cfg r hnd h n hn
  refine ⟨hb, fun ha => ?_⟩
  rw [hb, ha]
  rfl

/-- Witness for C3 (amended) at the concrete optional input `pcf?` absent
from an empty configuration: the binding is created and holds `None`. -/
theorem c3_optional_binds_resolved_witness :
    (["pcf?"].map (fun n => (decompose_depname n).1)).Nodup ∧
    getreqmaybe "stage" [] [] ["pcf?"] [] = .ok [("pcf", PyVal.pynone)] ∧
    dictGet [("pcf", PyVal.pynone)] (decompose_depname "pcf?").1 =
      some (resolve [] (pyGet [] (decompose_depname "pcf?").1)) :=
  ⟨by decide, rfl,
    (c3_optional_binds_resolved "stage" [] ["pcf?"] [] [("pcf", PyVal.pynone)]
      (by decide) rfl "pcf?" (by decide)).1⟩

/-- Claim C4: for an existing tracked path, `update` computes the
fingerprint (`0` for a directory, the stringified adler32 checksum for a
file), returns true recording `changed` and storing the fingerprint
exactly when it differs from the stored one or none is stored, and returns
false recording `same` on a match; consequently for a surviving directory
every update after the first returns false regardless of the children. -/
theorem c4_update_existing :
    (∀ (fs : FS) (s : SymbiCache) (p c : String) (e : FSEntry),
      dictGet fs p = some e →
      update fs s p c =
        if lookup2 s.hashes p c = some (fingerprint e) then
          (false, { s with status := try_push_consumer s.status p c "same" })
        else
          (true,
            { status := try_push_consumer s.status p c "changed"
              hashes := try_push_consumer s.hashes p c (fingerprint e) })) ∧
    (∀ (fs1 fs2 : FS) (ch1 ch2 : List String) (s : SymbiCache) (p c : String),
      dictGet fs1 p = some (FSEntry.dir ch1) →
      dictGet fs2 p = some (FSEntry.dir ch2) →
      (update fs2 (update fs1 s p c).2 p c).1 = false) := by
  refine ⟨fun fs s p c e h => update_some fs s p c e h, ?_⟩
  intro fs1 fs2 ch1 ch2 s p c h1 h2
  have hl : lookup2 (update fs1 s p c).2.hashes p c =
      some (fingerprint (FSEntry.dir ch2)) := by
    rw [lookup2_update_hashes_self s c h1]
    rfl
  rw [update_some fs2 _ p c _ h2, if_pos hl]

/-- Witness for C4: a fresh file is `changed` with its adler32 checksum
stored; tracking a directory twice (with a file added beneath it in
between) returns false the second time. -/
theorem c4_update_existing_witness :
    dictGet exFS "f" = some (FSEntry.file [1, 2, 3]) ∧
    update exFS emptyCache "f" "m" =
      (true,
        (⟨[("f", [("m", HashVal.strv "851975")])],
          [("f", [("m", "changed")])]⟩ : SymbiCache)) ∧
    (update exFSDir2 (update exFSDir1 emptyCache "d" "m").2 "d" "m").1 = false :=
  ⟨by decide,
    (c4_update_existing.1 exFS emptyCache "f" "m" (FSEntry.file [1, 2, 3])
      (by decide)).trans (by decide),
    c4_update_existing.2 exFSDir1 exFSDir2 ["a"] ["a", "b"] emptyCache "d" "m"
      (by decide) (by decide)⟩

/-- Claim C5 (code bug): the spec says a vanished path's entry for the
consumer is dropped; `update` does return true, but `_try_pop_consumer`
tests presence with Python truthiness (`if self.hashes.get(path) and
self.hashes[path].get(consumer)`), and a directory's stored checksum is
the falsy int `0`, so the fingerprint entry of a vanished directory is
never removed: here the status entry is dropped but the hashes entry
survives. -/
theorem c5_vanished_dir_hash_retained :
    update [] exCacheC5 "d" "m" =
      (true, (⟨[("d", [("m", HashVal.intv 0)])], []⟩ : SymbiCache)) ∧
    lookup2 (update [] exCacheC5 "d" "m").2.hashes "d" "m" = some (HashVal.intv 0) ∧
    get_status (update [] exCacheC5 "d" "m").2 "d" "m" = "untracked" :=
  ⟨by decide, by decide, by decide⟩

/-- Claim C6: `get_status` on a pair never touched by `update` returns the
sentinel `untracked` (for any sequence of updates on other pairs starting
from a fresh cache), and right after an `update` on an existing path the
pair's status is `changed` or `same` according to the returned boolean. -/
theorem c6_get_status_untracked_before_update (p c : String) :
    (∀ ops : List (FS × String × String),
      (∀ t ∈ ops, ¬(t.2.1 = p ∧ t.2.2 = c)) →
      get_status (runUpdates emptyCache ops) p c = "untracked") ∧
    (∀ (fs : FS) (s : SymbiCache) (e : FSEntry), dictGet fs p = some e →
      get_status (update fs s p c).2 p c =
        if (update fs s p c).1 then "changed" else "same") := by
  constructor
  · intro ops hops
    exact lookup2_status_none_untracked
      (lookup2_runUpdates_status_none ops emptyCache hops rfl)
  · intro fs s e h
    rw [update_some fs s p c e h]
    by_cases hc : lookup2 s.hashes p c = some (fingerprint e)
    · rw [if_pos hc]
      simp [get_status_eq_lookup2, lookup2_tryPush_self]
    · rw [if_neg hc]
      simp [get_status_eq_lookup2, lookup2_tryPush_self]

/-- Witness for C6: after one update on `("f", "m")`, the pair `("g", "m")`
is still `untracked`; and the status right after the update on `("f", "m")`
matches its returned boolean. -/
theorem c6_get_status_untracked_before_update_witness :
    (∀ t ∈ ([(exFS, "f", "m")] : List (FS × String × String)),
      ¬(t.2.1 = "g" ∧ t.2.2 = "m")) ∧
    get_status (runUpdates emptyCache [(exFS, "f", "m")]) "g" "m" = "untracked" ∧
    dictGet exFS "f" = some (FSEntry.file [1, 2, 3]) ∧
    get_status (update exFS emptyCache "f" "m").2 "f" "m" =
      (if (update exFS emptyCache "f" "m").1 then "changed" else "same") :=
  ⟨by decide,
    (c6_get_status_untracked_before_update "g" "m").1 _ (by decide),
    by decide,
    (c6_get_status_untracked_before_update "f" "m").2 exFS emptyCache
      (FSEntry.file [1, 2, 3]) (by decide)⟩

/-- Claim C7: an `update` on `(path, A)` leaves the stored fingerprint, the
stored status, and `get_status`'s answer for `(path, B)` unchanged for any
consumer `B` distinct from `A`, whatever the filesystem content. -/
theorem c7_consumer_frame (fs : FS) (s : SymbiCache) (p c c' : String)
    (h : c' ≠ c) :
    lookup2 (update fs s p c).2.hashes p c' = lookup2 s.hashes p c' ∧
    lookup2 (update fs s p c).2.status p c' = lookup2 s.status p c' ∧
    get_status (update fs s p c).2 p c' = get_status s p c' := by
  have hne : ¬(p = p ∧ c' = c) := fun hb => h hb.2
  cases hp : dictGet fs p with
  | none =>
    rw [update_none fs s p c hp]
    have hh : lookup2 (tryPopTable hashTruthy s.hashes p c) p c' =
        lookup2 s.hashes p c' := lookup2_tryPop_ne _ _ hne
    have hs : lookup2 (tryPopTable statusTruthy s.status p c) p c' =
        lookup2 s.status p c' := lookup2_tryPop_ne _ _ hne
    exact ⟨hh, hs, get_status_congr hs⟩
  | some e =>
    rw [update_some fs s p c e hp]
    by_cases hc : lookup2 s.hashes p c = some (fingerprint e)
    · rw [if_pos hc]
      have hs : lookup2 (try_push_consumer s.status p c "same") p c' =
          lookup2 s.status p c' := lookup2_tryPush_ne _ _ hne
      exact ⟨rfl, hs, get_status_congr hs⟩
    · rw [if_neg hc]
      have hs : lookup2 (try_push_consumer s.status p c "changed") p c' =
          lookup2 s.status p c' := lookup2_tryPush_ne _ _ hne
      exact ⟨lookup2_tryPush_ne _ _ hne, hs, get_status_congr hs⟩

/-- Witness for C7 at a concrete update: consumer `n`'s records survive an
update by consumer `m` on the same path. -/
theorem c7_consumer_frame_witness :
    ("n" : String) ≠ "m" ∧
    (lookup2 (update exFS exTracked "f" "m").2.hashes "f" "n" =
        lookup2 exTracked.hashes "f" "n" ∧
      lookup2 (update exFS exTracked "f" "m").2.status "f" "n" =
        lookup2 exTracked.status "f" "n" ∧
      get_status (update exFS exTracked "f" "m").2 "f" "n" =
        get_status exTracked "f" "n") :=
  ⟨by decide, c7_consumer_frame exFS exTracked "f" "m" "n" (by decide)⟩

/-- Claim C8: `update` preserves the invariant that no tracked path maps to
an empty consumer table (in the status table and in the hashes table), and
a save/load round trip cannot resurrect a pruned entry — the persisted
value (a JSON string, per C1) contains no entry for any pruned path. -/
theorem c8_no_dangling_entries :
    (∀ (fs : FS) (s : SymbiCache) (p c : String),
      noEmptyTables s → noEmptyTables (update fs s p c).2) ∧
    (∀ (s : SymbiCache) (p c : String), dictGet s.hashes p = Option.none →
      jsonHasEntry (loadHashes (save s)) p c = false) := by
  constructor
  · intro fs s p c H
    cases hp : dictGet fs p with
    | none =>
      rw [update_none fs s p c hp]
      exact ⟨tryPopTable_noEmpty _ _ _ _ H.1, tryPopTable_noEmpty _ _ _ _ H.2⟩
    | some e =>
      rw [update_some fs s p c e hp]
      by_cases hc : lookup2 s.hashes p c = some (fingerprint e)
      · rw [if_pos hc]
        exact ⟨try_push_consumer_noEmpty _ _ _ _ H.1, H.2⟩
      · rw [if_neg hc]
        exact ⟨try_push_consumer_noEmpty _ _ _ _ H.1, try_push_consumer_noEmpty _ _ _ _ H.2⟩
  · intro s p c _
    rfl

/-- Witness for C8: the invariant holds after an update from the fresh
cache, and the round-tripped persisted value has no entry for a path
absent from the table. -/
theorem c8_no_dangling_entries_witness :
    noEmptyTables (update exFS emptyCache "f" "m").2 ∧
    jsonHasEntry (loadHashes (save exCacheC1)) "g" "x" = false :=
  ⟨c8_no_dangling_entries.1 exFS emptyCache "f" "m"
      ⟨fun q m0 hm0 => by simp [emptyCache, dictGet] at hm0,
        fun q m0 hm0 => by simp [emptyCache, dictGet] at hm0⟩,
    c8_no_dangling_entries.2 exCacheC1 "g" "x" (by decide)⟩

/-- Counterexample to claim C9: for the declared on-demand output `log!`
absent from the explicit `produces` mapping, `is_output_explicit` does not
return false — `getattr` raises `AttributeError`, so the call fails. -/
theorem c9_output_explicit_counterexample :
    mkModuleContext exModuleOut exConfigEmpty [] noOutputs = .ok exCtxOut ∧
    is_output_explicit exCtxOut "log" = .error Err.attributeError :=
  ⟨rfl, rfl⟩

/-- Claim C9 (amended): on a successfully constructed context,
`is_output_explicit(name)` returns true exactly when `name` is a key of
the raw explicit-output mapping whose resolved value is not `None`, and
raises `AttributeError` when `name` is not a key of that mapping at all. -/
theorem c9_output_explicit (m : Module) (cfg : Config) (env : REnv)
    (io : Dict PyVal → Dict PyVal → Dict PyVal → Dict PyVal)
    (ctx : ModuleContext) (name : String)
    (h : mkModuleContext m cfg env io = .ok ctx) :
    is_output_explicit ctx name =
      match dictGet cfg.produces name with
      | Option.none => .error Err.attributeError
      | some v => .ok (notNone (resolve env v)) := by
  unfold is_output_explicit
  rw [mkModuleContext_ok_produces h, dictGet_resolveDict]
  cases dictGet cfg.produces name with
  | none => rfl
  | some v => rfl

/-- Witness for C9 (amended): with an explicit path configured for `log`,
`is_output_explicit` returns true. -/
theorem c9_output_explicit_witness :
    mkModuleContext exModuleOut exConfigProd [] noOutputs = .ok exCtxProd ∧
    is_output_explicit exCtxProd "log" =
      (match dictGet exConfigProd.produces "log" with
        | Option.none => .error Err.attributeError
        | some v => .ok (notNone (resolve [] v))) ∧
    is_output_explicit exCtxProd "log" = .ok true :=
  ⟨rfl,
    c9_output_explicit exModuleOut exConfigProd [] noOutputs exCtxProd "log" rfl,
    rfl⟩

/-- Claim C10: for a path that does not exist, `update` returns true but
records no status: a subsequent `get_status` on the pair returns
`untracked`, not `changed`. -/
theorem c10_vanished_reports_untracked (fs : FS) (s : SymbiCache) (p c : String)
    (h : dictGet fs p = Option.none) :
    (update fs s p c).1 = true ∧
    get_status (update fs s p c).2 p c = "untracked" := by
  rw [update_none fs s p c h]
  exact ⟨rfl, get_status_tryPop_self s p c⟩

/-- Witness for C10: a tracked file vanishes; `update` returns true and
`get_status` then answers `untracked`. -/
theorem c10_vanished_reports_untracked_witness :
    dictGet ([] : FS) "f" = Option.none ∧
    (update [] exTracked "f" "m").1 = true ∧
    get_status (update [] exTracked "f" "m").2 "f" "m" = "untracked" :=
  ⟨rfl, (c10_vanished_reports_untracked [] exTracked "f" "m" rfl).1,
    (c10_vanished_reports_untracked [] exTracked "f" "m" rfl).2⟩

end F4PGA

